import Mathlib

/-!
Verification development for the FluidEngine grid-fluid simulation core.

The C++ sources are shallowly embedded: `double` is modelled by `ℚ`
(exact arithmetic at spec level), `size_t` by `Nat`, fallible lookups by
total functions with explicit bounds side conditions.  Each embedded
definition keeps the name of the source function it translates.
-/

namespace FluidEngine

/-- Modelled from the spec: `Constants.h` is absent from `src/`; `kEpsilonD`
is the double-precision machine epsilon sentinel used as the "small epsilon"
threshold throughout the engine (`DBL_EPSILON = 2^-52`). -/
def kEpsilonD : ℚ := 1 / 4503599627370496

theorem kEpsilonD_pos : 0 < kEpsilonD := by norm_num [kEpsilonD]

/-! ## PhysicsAnimation (src/FluidEngine/Engine/Simulation/PhysicsAnimation.cpp)

The physics animation drives frame updates and the fixed / adaptive
sub-time-stepping loops.  The per-substep callback `onAdvanceTimeStep` is a
virtual hook; the embedding records which substep sizes the loops pass to it.
-/

/-- `Frame` (frame index plus seconds-per-frame), as used by
`PhysicsAnimation`.  `timeInSeconds() = index * timeIntervalInSeconds`. -/
structure Frame where
  index : Int
  timeIntervalInSeconds : ℚ
deriving DecidableEq

/-- `Frame::timeInSeconds()`. -/
def Frame.timeInSeconds (f : Frame) : ℚ := f.index * f.timeIntervalInSeconds

/-- The fixed-mode branch of `PhysicsAnimation::advanceTimeStep`: it computes
`actualTimeInterval = timeInterval / numberOfFixedSubTimeSteps` and invokes the
substep hook exactly `numberOfFixedSubTimeSteps` times with that interval.
The embedding returns the list of substep sizes passed to the hook. -/
def fixedSubSteps (numberOfFixedSubTimeSteps : Nat)
    (timeIntervalInSeconds : ℚ) : List ℚ :=
  List.replicate numberOfFixedSubTimeSteps
    (timeIntervalInSeconds / (numberOfFixedSubTimeSteps : ℚ))

/-- The adaptive-mode branch of `PhysicsAnimation::advanceTimeStep`,
parameterised by the (virtual) `numberOfSubTimeSteps` policy `f`.  The C++
`while (remainingTime > kEpsilonD)` loop is embedded with explicit fuel; the
result is the list of substep sizes passed to the hook together with the final
`remainingTime`. -/
def adaptiveSubSteps (f : ℚ → Nat) : Nat → ℚ → List ℚ × ℚ
  | 0, remainingTime => ([], remainingTime)
  | fuel + 1, remainingTime =>
    if remainingTime > kEpsilonD then
      let numSteps := f remainingTime
      let actualTimeInterval := remainingTime / (numSteps : ℚ)
      let rest := adaptiveSubSteps f fuel (remainingTime - actualTimeInterval)
      (actualTimeInterval :: rest.1, rest.2)
    else ([], remainingTime)

/-- An adaptive sub-stepping trace: `AdaptiveTrace f r steps final` says the
substep sizes `steps` are exactly those the adaptive loop takes starting from
remaining time `r`, each one recomputed as `remaining / f remaining` from the
remaining time at its own iteration, stopping with `final ≤ kEpsilonD`. -/
inductive AdaptiveTrace (f : ℚ → Nat) : ℚ → List ℚ → ℚ → Prop
  | done (r : ℚ) (h : ¬ r > kEpsilonD) : AdaptiveTrace f r [] r
  | step (r : ℚ) (steps : List ℚ) (final : ℚ) (h : r > kEpsilonD)
      (tail : AdaptiveTrace f (r - r / (f r : ℚ)) steps final) :
      AdaptiveTrace f r (r / (f r : ℚ) :: steps) final

theorem adaptiveSubSteps_sum (f : ℚ → Nat) :
    ∀ (fuel : Nat) (r : ℚ),
      (adaptiveSubSteps f fuel r).1.sum = r - (adaptiveSubSteps f fuel r).2 := by
  intro fuel
  induction fuel with
  | zero => intro r; simp [adaptiveSubSteps]
  | succ n ih =>
    intro r
    by_cases h : r > kEpsilonD
    · simp only [adaptiveSubSteps, if_pos h, List.sum_cons]
      rw [ih]
      ring
    · simp [adaptiveSubSteps, if_neg h]

theorem adaptiveSubSteps_nonneg (f : ℚ → Nat) :
    ∀ (fuel : Nat) (r : ℚ), 0 ≤ r → 0 ≤ (adaptiveSubSteps f fuel r).2 := by
  intro fuel
  induction fuel with
  | zero => intro r h; simpa [adaptiveSubSteps] using h
  | succ n ih =>
    intro r h
    by_cases hgt : r > kEpsilonD
    · simp only [adaptiveSubSteps, if_pos hgt]
      apply ih
      rcases Nat.eq_zero_or_pos (f r) with hf | hf
      · simp [hf]
        linarith
      · have hfq : (1 : ℚ) ≤ (f r : ℚ) := by exact_mod_cast hf
        have : r / (f r : ℚ) ≤ r := by
          rw [div_le_iff₀ (by linarith)]
          nlinarith
        linarith
    · simpa [adaptiveSubSteps, if_neg hgt] using h

theorem adaptiveSubSteps_trace (f : ℚ → Nat) :
    ∀ (fuel : Nat) (r : ℚ),
      ¬ (adaptiveSubSteps f fuel r).2 > kEpsilonD →
      AdaptiveTrace f r (adaptiveSubSteps f fuel r).1 (adaptiveSubSteps f fuel r).2 := by
  intro fuel
  induction fuel with
  | zero =>
    intro r h
    exact AdaptiveTrace.done r (by simpa [adaptiveSubSteps] using h)
  | succ n ih =>
    intro r h
    by_cases hgt : r > kEpsilonD
    · simp only [adaptiveSubSteps, if_pos hgt] at h ⊢
      exact AdaptiveTrace.step r _ _ hgt (ih _ h)
    · simp only [adaptiveSubSteps, if_neg hgt]
      exact AdaptiveTrace.done r hgt

/-- `PhysicsAnimation` state, instrumented for verification: `advanceCalls`
records the time interval of every `advanceTimeStep` invocation made by
`onUpdate`, and `onInitializeCount` counts invocations of the one-time
`onInitialize` hook. -/
structure PhysicsAnimationState where
  currentFrame : Frame
  isInitialized : Bool
  onInitializeCount : Nat
  advanceCalls : List ℚ

/-- `PhysicsAnimation::PhysicsAnimation()`: the constructor sets
`_currentFrame.index = -1`; the animation starts uninitialized. -/
def PhysicsAnimationState.init (spf : ℚ) : PhysicsAnimationState :=
  { currentFrame := { index := -1, timeIntervalInSeconds := spf }
    isInitialized := false
    onInitializeCount := 0
    advanceCalls := [] }

/-- `PhysicsAnimation::initialize()`: runs `onInitialize` only when not yet
initialized, then latches `_isInitialized`. -/
def PhysicsAnimationState.initialize (s : PhysicsAnimationState) :
    PhysicsAnimationState :=
  if s.isInitialized then s
  else { s with isInitialized := true, onInitializeCount := s.onInitializeCount + 1 }

/-- `PhysicsAnimation::onUpdate(frame)`: when `frame.index >
_currentFrame.index`, initialize, call `advanceTimeStep(frame.timeIntervalInSeconds)`
once per whole frame between current and target, then adopt `frame` as
current; otherwise do nothing. -/
def PhysicsAnimationState.onUpdate (s : PhysicsAnimationState) (frame : Frame) :
    PhysicsAnimationState :=
  if frame.index > s.currentFrame.index then
    let s1 := s.initialize
    let numberOfFrames := (frame.index - s.currentFrame.index).toNat
    { s1 with
      advanceCalls :=
        s1.advanceCalls ++ List.replicate numberOfFrames frame.timeIntervalInSeconds
      currentFrame := frame }
  else s

/-- The `onInitialize` counter always equals 1 on initialized states and 0 on
uninitialized ones; `onUpdate` preserves this. -/
theorem onUpdate_initCount (s : PhysicsAnimationState) (frame : Frame)
    (h : s.onInitializeCount = if s.isInitialized then 1 else 0) :
    (s.onUpdate frame).onInitializeCount =
      if (s.onUpdate frame).isInitialized then 1 else 0 := by
  unfold PhysicsAnimationState.onUpdate PhysicsAnimationState.initialize
  split
  · split
    · rename_i hinit
      simpa [hinit] using h
    · rename_i hinit
      have : s.isInitialized = false := by revert hinit; cases s.isInitialized <;> simp
      simp only [this, if_neg Bool.false_ne_true] at h
      simp [h]
  · exact h

theorem foldl_onUpdate_initCount (frames : List Frame) :
    ∀ (s : PhysicsAnimationState),
      s.onInitializeCount = (if s.isInitialized then 1 else 0) →
      (frames.foldl PhysicsAnimationState.onUpdate s).onInitializeCount =
        (if (frames.foldl PhysicsAnimationState.onUpdate s).isInitialized then 1 else 0) := by
  induction frames with
  | nil => intro s h; simpa using h
  | cons frame rest ih =>
    intro s h
    exact ih (s.onUpdate frame) (onUpdate_initCount s frame h)

/-- C2: `PhysicsAnimation::advanceTimeStep` consumes the whole requested
interval `T > 0`.  Fixed mode passes exactly `N` equal substeps of size `T/N`
to the per-substep hook, and these sum to `T` when `N > 0`.  Adaptive mode:
whenever the `while (remainingTime > kEpsilonD)` loop has finished within the
given fuel, the substeps taken form an `AdaptiveTrace` (each substep size
recomputed as `remaining / f remaining` from the remaining time at that very
iteration, never from the original interval), and their sum is `T - final`
with `0 ≤ final ≤ kEpsilonD` — so the sum equals `T` to within `kEpsilonD`. -/
theorem C2_advanceTimeStep_consumes_interval
    (T : ℚ) (hT : 0 < T) (N : Nat) (hN : 0 < N) (f : ℚ → Nat) (fuel : Nat)
    (hdone : ¬ (adaptiveSubSteps f fuel T).2 > kEpsilonD) :
    (fixedSubSteps N T = List.replicate N (T / (N : ℚ)) ∧
      (fixedSubSteps N T).sum = T) ∧
    (AdaptiveTrace f T (adaptiveSubSteps f fuel T).1 (adaptiveSubSteps f fuel T).2 ∧
      (adaptiveSubSteps f fuel T).1.sum = T - (adaptiveSubSteps f fuel T).2 ∧
      0 ≤ (adaptiveSubSteps f fuel T).2 ∧
      (adaptiveSubSteps f fuel T).2 ≤ kEpsilonD ∧
      T - kEpsilonD ≤ (adaptiveSubSteps f fuel T).1.sum ∧
      (adaptiveSubSteps f fuel T).1.sum ≤ T) := by
  have hsum := adaptiveSubSteps_sum f fuel T
  have hnn := adaptiveSubSteps_nonneg f fuel T (le_of_lt hT)
  have hle : (adaptiveSubSteps f fuel T).2 ≤ kEpsilonD := not_lt.mp hdone
  refine ⟨⟨rfl, ?_⟩, adaptiveSubSteps_trace f fuel T hdone, hsum, hnn, hle, ?_, ?_⟩
  · have hNq : (N : ℚ) ≠ 0 := Nat.cast_ne_zero.mpr hN.ne'
    rw [fixedSubSteps, List.sum_replicate, nsmul_eq_mul]
    field_simp
  · rw [hsum]; linarith
  · rw [hsum]; linarith

theorem C2_advanceTimeStep_consumes_interval_witness :
    (0 : ℚ) < 1 ∧ 0 < 2 ∧
      ¬ (adaptiveSubSteps (fun _ => 1) 1 1).2 > kEpsilonD ∧
      ((fixedSubSteps 2 1 = List.replicate 2 ((1 : ℚ) / (2 : ℚ)) ∧
          (fixedSubSteps 2 1).sum = 1) ∧
        (AdaptiveTrace (fun _ => 1) 1 (adaptiveSubSteps (fun _ => 1) 1 1).1
            (adaptiveSubSteps (fun _ => 1) 1 1).2 ∧
          (adaptiveSubSteps (fun _ => 1) 1 1).1.sum =
            1 - (adaptiveSubSteps (fun _ => 1) 1 1).2 ∧
          0 ≤ (adaptiveSubSteps (fun _ => 1) 1 1).2 ∧
          (adaptiveSubSteps (fun _ => 1) 1 1).2 ≤ kEpsilonD ∧
          1 - kEpsilonD ≤ (adaptiveSubSteps (fun _ => 1) 1 1).1.sum ∧
          (adaptiveSubSteps (fun _ => 1) 1 1).1.sum ≤ 1)) :=
  ⟨by norm_num, by norm_num, by with_unfolding_all decide,
    C2_advanceTimeStep_consumes_interval 1 (by norm_num) 2 (by norm_num)
      (fun _ => 1) 1 (by with_unfolding_all decide)⟩

/-- C5: `PhysicsAnimation::onUpdate`.  A target frame with index at most the
current frame's index leaves the whole state unchanged (no re-simulation, no
rewind).  A strictly greater target first runs the one-time initialization
(leaving `onInitializeCount` at exactly 1 for the whole lifetime — third
conjunct, over any sequence of updates from the freshly-constructed state),
invokes `advanceTimeStep(frame.timeIntervalInSeconds)` exactly
`frame.index - currentFrame.index` times, and then adopts the target frame as
current. -/
theorem C5_onUpdate_frame_stepping :
    (∀ (s : PhysicsAnimationState) (frame : Frame),
        frame.index ≤ s.currentFrame.index → s.onUpdate frame = s) ∧
    (∀ (s : PhysicsAnimationState) (frame : Frame),
        frame.index > s.currentFrame.index →
          (s.onUpdate frame).currentFrame = frame ∧
          (s.onUpdate frame).advanceCalls =
            s.advanceCalls ++
              List.replicate (frame.index - s.currentFrame.index).toNat
                frame.timeIntervalInSeconds ∧
          (s.onUpdate frame).isInitialized = true ∧
          (s.onUpdate frame).onInitializeCount =
            (if s.isInitialized then s.onInitializeCount else s.onInitializeCount + 1)) ∧
    (∀ (spf : ℚ) (frames : List Frame),
        (frames.foldl PhysicsAnimationState.onUpdate
            (PhysicsAnimationState.init spf)).onInitializeCount =
          (if (frames.foldl PhysicsAnimationState.onUpdate
              (PhysicsAnimationState.init spf)).isInitialized then 1 else 0)) := by
  refine ⟨?_, ?_, ?_⟩
  · intro s frame h
    unfold PhysicsAnimationState.onUpdate
    rw [if_neg (not_lt.mpr h)]
  · intro s frame h
    unfold PhysicsAnimationState.onUpdate PhysicsAnimationState.initialize
    rw [if_pos h]
    cases hinit : s.isInitialized <;> simp [hinit]
  · intro spf frames
    exact foldl_onUpdate_initCount frames _ (by simp [PhysicsAnimationState.init])

theorem C5_onUpdate_frame_stepping_witness :
    ((1 : Int) ≤ 1 ∧
      (PhysicsAnimationState.onUpdate
        { currentFrame := { index := 1, timeIntervalInSeconds := 1 }
          isInitialized := true, onInitializeCount := 1, advanceCalls := [] }
        { index := 1, timeIntervalInSeconds := 1 }) =
      { currentFrame := { index := 1, timeIntervalInSeconds := 1 }
        isInitialized := true, onInitializeCount := 1, advanceCalls := [] }) := by
  constructor
  · exact le_refl 1
  · exact C5_onUpdate_frame_stepping.1 _ _ (by decide)

/-! ## GridFluidSolver3 (src/FluidEngine/Engine/Simulation/GridFluidSolver3.cpp)

`double` fields are modelled by `ℚ`; the velocity grid enters the `cfl`
computation only through `valueAtCellCenter`, which is carried as a function
from cell indices to vectors (`FaceCenteredGrid3` itself is not under
`src/`). -/

/-- A 3-component vector of rationals (`Vector3D`). -/
structure Vec3 where
  x : ℚ
  y : ℚ
  z : ℚ
deriving DecidableEq

/-- A 3-D extent (`Size3`). -/
structure Size3 where
  x : Nat
  y : Nat
  z : Nat
deriving DecidableEq

/-- `min3` from `MathUtils`: minimum of three values. -/
def min3 (a b c : ℚ) : ℚ := min a (min b c)

/-- `max3`: maximum of three values (used to restate the nested
`std::max` chain in `cfl`). -/
def max3 (a b c : ℚ) : ℚ := max a (max b c)

/-- The serial cell-index iteration order of `forEachCellIndex`
(`i` fastest, then `j`, then `k`). -/
def cells3 (res : Size3) : List (Nat × Nat × Nat) :=
  (List.range res.z).flatMap fun k =>
    (List.range res.y).flatMap fun j =>
      (List.range res.x).map fun i => (i, j, k)

theorem mem_cells3 (res : Size3) (c : Nat × Nat × Nat) :
    c ∈ cells3 res ↔ c.1 < res.x ∧ c.2.1 < res.y ∧ c.2.2 < res.z := by
  obtain ⟨i, j, k⟩ := c
  simp only [cells3, List.mem_flatMap, List.mem_map, List.mem_range]
  constructor
  · rintro ⟨k', hk, j', hj, i', hi, heq⟩
    cases heq
    exact ⟨hi, hj, hk⟩
  · rintro ⟨hi, hj, hk⟩
    exact ⟨k, hk, j, hj, i, hi, rfl⟩

/-- `GridFluidSolver3` state as it enters the claims under verification.
The velocity grid is represented by its `valueAtCellCenter` samples. -/
structure GridFluidSolver3 where
  resolution : Size3
  gridSpacing : Vec3
  gravity : Vec3
  cellCenterVel : Nat × Nat × Nat → Vec3
  viscosityCoefficient : ℚ
  maxCfl : ℚ

namespace GridFluidSolver3

/-- The loop body of `GridFluidSolver3::cfl`: fold `maxVel` over all cells,
taking `std::max` with the three signed components of
`valueAtCellCenter + dt * gravity` (the accumulator starts at `0.0`). -/
def cflMaxVel (s : GridFluidSolver3) (timeIntervalInSeconds : ℚ) : ℚ :=
  (cells3 s.resolution).foldl
    (fun maxVel c =>
      let v : Vec3 :=
        { x := (s.cellCenterVel c).x + timeIntervalInSeconds * s.gravity.x
          y := (s.cellCenterVel c).y + timeIntervalInSeconds * s.gravity.y
          z := (s.cellCenterVel c).z + timeIntervalInSeconds * s.gravity.z }
      max (max (max maxVel v.x) v.y) v.z)
    0

/-- `GridFluidSolver3::cfl`. -/
def cfl (s : GridFluidSolver3) (timeIntervalInSeconds : ℚ) : ℚ :=
  cflMaxVel s timeIntervalInSeconds * timeIntervalInSeconds /
    min3 s.gridSpacing.x s.gridSpacing.y s.gridSpacing.z

/-- The CFL number as worded by the claim: the maximum over all grid cells of
the componentwise ABSOLUTE value of `cell-center velocity + dt * gravity`,
multiplied by `dt` and divided by the minimum grid spacing across axes.
(Stated from the spec sentence, for comparison against `cfl`.) -/
def cflClaimed (s : GridFluidSolver3) (timeIntervalInSeconds : ℚ) : ℚ :=
  ((cells3 s.resolution).foldl
      (fun maxVel c =>
        let v : Vec3 :=
          { x := (s.cellCenterVel c).x + timeIntervalInSeconds * s.gravity.x
            y := (s.cellCenterVel c).y + timeIntervalInSeconds * s.gravity.y
            z := (s.cellCenterVel c).z + timeIntervalInSeconds * s.gravity.z }
        max (max (max maxVel |v.x|) |v.y|) |v.z|)
      0) * timeIntervalInSeconds /
    min3 s.gridSpacing.x s.gridSpacing.y s.gridSpacing.z

/-- `GridFluidSolver3::numberOfSubTimeSteps`:
`max(ceil(cfl(dt) / maxCfl), 1.0)` cast to an unsigned integer. -/
def numberOfSubTimeSteps (s : GridFluidSolver3) (timeIntervalInSeconds : ℚ) : Nat :=
  (max ⌈cfl s timeIntervalInSeconds / s.maxCfl⌉ 1).toNat

/-- `GridFluidSolver3::setViscosityCoefficient`:
`_viscosityCoefficient = std::max(newValue, 0.0)`. -/
def setViscosityCoefficient (s : GridFluidSolver3) (newValue : ℚ) :
    GridFluidSolver3 :=
  { s with viscosityCoefficient := max newValue 0 }

/-- `GridFluidSolver3::setMaxCfl`: `_maxCfl = std::max(newCfl, kEpsilonD)`. -/
def setMaxCfl (s : GridFluidSolver3) (newCfl : ℚ) : GridFluidSolver3 :=
  { s with maxCfl := max newCfl kEpsilonD }

/-- `GridFluidSolver3::setGravity`: plain assignment. -/
def setGravity (s : GridFluidSolver3) (newGravity : Vec3) : GridFluidSolver3 :=
  { s with gravity := newGravity }

end GridFluidSolver3

section FoldMax

variable {α : Type} (g : α → ℚ)

theorem foldl_max_init_le :
    ∀ (l : List α) (a : ℚ), a ≤ l.foldl (fun acc c => max acc (g c)) a := by
  intro l
  induction l with
  | nil => intro a; simp
  | cons c l ih =>
    intro a
    exact le_trans (le_max_left a (g c)) (ih (max a (g c)))

theorem foldl_max_mem_le :
    ∀ (l : List α) (a : ℚ) (c : α), c ∈ l →
      g c ≤ l.foldl (fun acc x => max acc (g x)) a := by
  intro l
  induction l with
  | nil => intro a c h; cases h
  | cons d l ih =>
    intro a c h
    rcases List.mem_cons.mp h with rfl | h
    · exact le_trans (le_max_right a (g c)) (foldl_max_init_le g l _)
    · exact ih _ c h

theorem foldl_max_eq_init_or_mem :
    ∀ (l : List α) (a : ℚ),
      l.foldl (fun acc x => max acc (g x)) a = a ∨
        ∃ c ∈ l, l.foldl (fun acc x => max acc (g x)) a = g c := by
  intro l
  induction l with
  | nil => intro a; left; rfl
  | cons d l ih =>
    intro a
    rcases ih (max a (g d)) with h | ⟨c, hc, h⟩
    · rcases max_choice a (g d) with hm | hm
      · left
        simpa [hm] using h
      · right
        exact ⟨d, List.mem_cons_self d l, by simpa [hm] using h⟩
    · right
      exact ⟨c, List.mem_cons_of_mem d hc, h⟩

end FoldMax

namespace GridFluidSolver3

/-- The three per-component `std::max` updates in the `cfl` loop body amount
to one `max` against `max3` of the components. -/
theorem cflMaxVel_eq_foldl_max3 (s : GridFluidSolver3) (dt : ℚ) :
    cflMaxVel s dt =
      (cells3 s.resolution).foldl
        (fun acc c =>
          max acc
            (max3 ((s.cellCenterVel c).x + dt * s.gravity.x)
              ((s.cellCenterVel c).y + dt * s.gravity.y)
              ((s.cellCenterVel c).z + dt * s.gravity.z)))
        0 := by
  unfold cflMaxVel
  apply List.foldl_ext
  intro a c _
  simp [max3, max_assoc]

/-- The set of values the `cfl` loop maximises over: zero (the accumulator's
start) together with every signed component of
`valueAtCellCenter + dt * gravity` over all cells. -/
def cflComponentSet (s : GridFluidSolver3) (dt : ℚ) : Set ℚ :=
  insert 0
    {v : ℚ | ∃ i j k, i < s.resolution.x ∧ j < s.resolution.y ∧ k < s.resolution.z ∧
      (v = (s.cellCenterVel (i, j, k)).x + dt * s.gravity.x ∨
        v = (s.cellCenterVel (i, j, k)).y + dt * s.gravity.y ∨
        v = (s.cellCenterVel (i, j, k)).z + dt * s.gravity.z)}

theorem cflMaxVel_isGreatest (s : GridFluidSolver3) (dt : ℚ) :
    IsGreatest (cflComponentSet s dt) (cflMaxVel s dt) := by
  rw [cflMaxVel_eq_foldl_max3]
  set g : Nat × Nat × Nat → ℚ := fun c =>
    max3 ((s.cellCenterVel c).x + dt * s.gravity.x)
      ((s.cellCenterVel c).y + dt * s.gravity.y)
      ((s.cellCenterVel c).z + dt * s.gravity.z) with hg
  constructor
  · rcases foldl_max_eq_init_or_mem g (cells3 s.resolution) 0 with h | ⟨c, hc, h⟩
    · rw [h]; exact Set.mem_insert 0 _
    · obtain ⟨i, j, k⟩ := c
      obtain ⟨hi, hj, hk⟩ := (mem_cells3 s.resolution (i, j, k)).mp hc
      apply Set.mem_insert_of_mem
      refine ⟨i, j, k, hi, hj, hk, ?_⟩
      rw [h, hg]
      simp only [max3]
      rcases max_choice ((s.cellCenterVel (i, j, k)).x + dt * s.gravity.x)
          (max ((s.cellCenterVel (i, j, k)).y + dt * s.gravity.y)
            ((s.cellCenterVel (i, j, k)).z + dt * s.gravity.z)) with hm | hm
      · left; exact hm
      · rw [hm]
        rcases max_choice ((s.cellCenterVel (i, j, k)).y + dt * s.gravity.y)
            ((s.cellCenterVel (i, j, k)).z + dt * s.gravity.z) with hm2 | hm2
        · right; left; exact hm2
        · right; right; exact hm2
  · rintro v (rfl | ⟨i, j, k, hi, hj, hk, hv⟩)
    · exact foldl_max_init_le g (cells3 s.resolution) 0
    · have hc : (i, j, k) ∈ cells3 s.resolution :=
        (mem_cells3 s.resolution (i, j, k)).mpr ⟨hi, hj, hk⟩
      have hle := foldl_max_mem_le g (cells3 s.resolution) 0 (i, j, k) hc
      have hcomp : v ≤ g (i, j, k) := by
        rw [hg]
        simp only [max3]
        rcases hv with rfl | rfl | rfl
        · exact le_max_left _ _
        · exact le_trans (le_max_left _ _) (le_max_right _ _)
        · exact le_trans (le_max_right _ _) (le_max_right _ _)
      exact le_trans hcomp hle

end GridFluidSolver3

open GridFluidSolver3

/-- A concrete solver state with a single cell whose cell-center velocity is
componentwise negative: it separates the signed maximum computed by `cfl`
from the absolute-value maximum. -/
def negVelSolverState : GridFluidSolver3 :=
  { resolution := ⟨1, 1, 1⟩
    gridSpacing := ⟨1, 1, 1⟩
    gravity := ⟨0, 0, 0⟩
    cellCenterVel := fun _ => ⟨-1, -1, -1⟩
    viscosityCoefficient := 0
    maxCfl := 5 }

/-- C1, counterexample: on a 1×1×1 grid with cell-center velocity
`(-1, -1, -1)`, zero gravity, unit spacing and `dt = 1`, the source `cfl`
returns `0` (it maximises the signed components against an accumulator
starting at `0.0`, taking no absolute value), while the claimed
absolute-value formula gives `1`. -/
theorem C1_cfl_counterexample :
    cfl negVelSolverState 1 ≠ cflClaimed negVelSolverState 1 ∧
      cfl negVelSolverState 1 = 0 ∧ cflClaimed negVelSolverState 1 = 1 := by
  refine ⟨?_, ?_, ?_⟩ <;> with_unfolding_all decide

/-- C1, amended: `cfl(dt)` returns `M * dt / (minimum grid spacing across
axes)` where `M` is the greatest element of `{0} ∪ {signed components of
cell-center velocity + dt·gravity over all grid cells}` — i.e. the maximum of
the SIGNED component values clamped below at zero; no absolute value is
taken. -/
theorem C1_cfl_formula (s : GridFluidSolver3) (dt : ℚ) :
    cfl s dt =
      cflMaxVel s dt * dt /
        min3 s.gridSpacing.x s.gridSpacing.y s.gridSpacing.z ∧
    IsGreatest (cflComponentSet s dt) (cflMaxVel s dt) :=
  ⟨rfl, cflMaxVel_isGreatest s dt⟩

/-- The mutating operations on a `GridFluidSolver3` that touch the fields of
the C9 invariant. -/
inductive SolverOp where
  | setViscosityCoefficient (newValue : ℚ)
  | setMaxCfl (newCfl : ℚ)
  | setGravity (newGravity : Vec3)

/-- Apply one setter call. -/
def applyOp (s : GridFluidSolver3) : SolverOp → GridFluidSolver3
  | .setViscosityCoefficient v => s.setViscosityCoefficient v
  | .setMaxCfl v => s.setMaxCfl v
  | .setGravity g => s.setGravity g

/-- Apply a sequence of setter calls, left to right. -/
def applyOps (s : GridFluidSolver3) (ops : List SolverOp) : GridFluidSolver3 :=
  ops.foldl applyOp s

/-- The C9 invariant: non-negative viscosity and `maxCfl` at least
`kEpsilonD`. -/
def GridFluidSolver3.Valid (s : GridFluidSolver3) : Prop :=
  0 ≤ s.viscosityCoefficient ∧ kEpsilonD ≤ s.maxCfl

theorem applyOp_preserves_valid (s : GridFluidSolver3) (op : SolverOp)
    (h : s.Valid) : (applyOp s op).Valid := by
  obtain ⟨h1, h2⟩ := h
  cases op with
  | setViscosityCoefficient v =>
    exact ⟨le_max_right v 0, h2⟩
  | setMaxCfl v =>
    exact ⟨h1, le_max_right v kEpsilonD⟩
  | setGravity g =>
    exact ⟨h1, h2⟩

theorem applyOps_preserves_valid (ops : List SolverOp) :
    ∀ (s : GridFluidSolver3), s.Valid → (applyOps s ops).Valid := by
  induction ops with
  | nil => intro s h; exact h
  | cons op rest ih =>
    intro s h
    exact ih (applyOp s op) (applyOp_preserves_valid s op h)

/-- C9: `setViscosityCoefficient` clamps its argument below at `0` and
`setMaxCfl` clamps its argument below at `kEpsilonD`; hence along any sequence
of setter calls starting from a state satisfying the invariant, viscosity
stays non-negative, `maxCfl` stays at least `kEpsilonD` (in particular
positive, so the division in `numberOfSubTimeSteps` is never by zero), and
`numberOfSubTimeSteps` always returns at least `1`. -/
theorem C9_setter_clamping_invariant :
    (∀ (s : GridFluidSolver3) (v : ℚ),
        0 ≤ (s.setViscosityCoefficient v).viscosityCoefficient ∧
        (s.setViscosityCoefficient v).viscosityCoefficient = max v 0) ∧
    (∀ (s : GridFluidSolver3) (v : ℚ),
        kEpsilonD ≤ (s.setMaxCfl v).maxCfl ∧
        (s.setMaxCfl v).maxCfl = max v kEpsilonD) ∧
    (∀ (s : GridFluidSolver3), s.Valid → ∀ (ops : List SolverOp),
        (applyOps s ops).Valid ∧
        0 < (applyOps s ops).maxCfl ∧
        (applyOps s ops).maxCfl ≠ 0 ∧
        ∀ dt, 1 ≤ numberOfSubTimeSteps (applyOps s ops) dt) := by
  refine ⟨fun s v => ⟨le_max_right v 0, rfl⟩,
    fun s v => ⟨le_max_right v kEpsilonD, rfl⟩, fun s hs ops => ?_⟩
  have hvalid := applyOps_preserves_valid ops s hs
  have hpos : 0 < (applyOps s ops).maxCfl := lt_of_lt_of_le kEpsilonD_pos hvalid.2
  refine ⟨hvalid, hpos, ne_of_gt hpos, fun dt => ?_⟩
  have h1 : (1 : Int) ≤ max ⌈cfl (applyOps s ops) dt / (applyOps s ops).maxCfl⌉ 1 :=
    le_max_right _ 1
  have h2 := Int.toNat_le_toNat h1
  simp only [numberOfSubTimeSteps]
  exact h2

/-- C9 witness: the invariant holds at `negVelSolverState` with viscosity 0
and `maxCfl = 5`, and is preserved by a concrete setter sequence that passes
out-of-range arguments. -/
theorem C9_setter_clamping_invariant_witness :
    GridFluidSolver3.Valid negVelSolverState ∧
      (applyOps negVelSolverState
          [SolverOp.setViscosityCoefficient (-3), SolverOp.setMaxCfl 0]).Valid :=
  ⟨⟨by with_unfolding_all decide, by with_unfolding_all decide⟩,
    (C9_setter_clamping_invariant.2.2 negVelSolverState
        ⟨by with_unfolding_all decide, by with_unfolding_all decide⟩
        [SolverOp.setViscosityCoefficient (-3), SolverOp.setMaxCfl 0]).1⟩

/-! ### The per-substep pipeline of `GridFluidSolver3::onAdvanceTimeStep`

The concrete stage bodies (diffusion solve, pressure solve, advection sweep,
gravity application, the begin/end hooks) act on grid state through external
solver interfaces; they are carried as abstract state transformers, and the
run is instrumented with the list of stage bodies that actually executed. -/

/-- The guarded physics stages of `onAdvanceTimeStep`. -/
inductive Stage where
  | externalForces
  | viscosity
  | pressure
  | advection
deriving DecidableEq

/-- `Vector3D::lengthSquared()`. -/
def Vec3.lengthSquared (v : Vec3) : ℚ := v.x * v.x + v.y * v.y + v.z * v.z

/-- The solver configuration entering a substep: nullable solver pointers are
`Option`s whose payload is the corresponding stage body (each body bundles the
solve together with the trailing `applyBoundaryCondition` call). -/
structure PipelineConfig (σ : Type) where
  resolution : Size3
  gravity : Vec3
  viscosityCoefficient : ℚ
  advectionSolver : Option (ℚ → σ → σ)
  diffusionSolver : Option (ℚ → σ → σ)
  pressureSolver : Option (ℚ → σ → σ)
  gravityBody : ℚ → σ → σ
  beginAdvanceTimeStep : ℚ → σ → σ
  endAdvanceTimeStep : ℚ → σ → σ

namespace PipelineConfig

variable {σ : Type}

/-- `GridFluidSolver3::computeGravity`: the body runs only when
`gravity.lengthSquared() > kEpsilonD`. -/
def computeGravity (cfg : PipelineConfig σ) (dt : ℚ) (s : σ) : σ × List Stage :=
  if cfg.gravity.lengthSquared > kEpsilonD then
    (cfg.gravityBody dt s, [Stage.externalForces])
  else (s, [])

/-- `GridFluidSolver3::computeExternalForces` just calls `computeGravity`. -/
def computeExternalForces (cfg : PipelineConfig σ) (dt : ℚ) (s : σ) :
    σ × List Stage :=
  cfg.computeGravity dt s

/-- `GridFluidSolver3::computeViscosity`: runs only when the diffusion solver
pointer is non-null AND `_viscosityCoefficient > kEpsilonD`. -/
def computeViscosity (cfg : PipelineConfig σ) (dt : ℚ) (s : σ) : σ × List Stage :=
  match cfg.diffusionSolver with
  | some solve =>
    if cfg.viscosityCoefficient > kEpsilonD then (solve dt s, [Stage.viscosity])
    else (s, [])
  | none => (s, [])

/-- `GridFluidSolver3::computePressure`: runs only when the pressure solver
pointer is non-null. -/
def computePressure (cfg : PipelineConfig σ) (dt : ℚ) (s : σ) : σ × List Stage :=
  match cfg.pressureSolver with
  | some solve => (solve dt s, [Stage.pressure])
  | none => (s, [])

/-- `GridFluidSolver3::computeAdvection`: the whole body (custom scalar and
vector layers, then velocity self-advection) is guarded on a non-null
advection solver pointer. -/
def computeAdvection (cfg : PipelineConfig σ) (dt : ℚ) (s : σ) : σ × List Stage :=
  match cfg.advectionSolver with
  | some solve => (solve dt s, [Stage.advection])
  | none => (s, [])

/-- `GridFluidSolver3::onAdvanceTimeStep`: a zero component in the grid
resolution skips the whole substep body; otherwise the stages run in order
between the begin/end hooks. -/
def onAdvanceTimeStep (cfg : PipelineConfig σ) (dt : ℚ) (s : σ) : σ × List Stage :=
  if cfg.resolution.x = 0 ∨ cfg.resolution.y = 0 ∨ cfg.resolution.z = 0 then
    (s, [])
  else
    let s0 := cfg.beginAdvanceTimeStep dt s
    let r1 := cfg.computeExternalForces dt s0
    let r2 := cfg.computeViscosity dt r1.1
    let r3 := cfg.computePressure dt r2.1
    let r4 := cfg.computeAdvection dt r3.1
    (cfg.endAdvanceTimeStep dt r4.1, r1.2 ++ r2.2 ++ r3.2 ++ r4.2)

end PipelineConfig

/-- C8: a zero component in the grid resolution skips the whole substep body,
leaving the state unchanged and running no stage (no error is raised — the
result is total).  On a non-degenerate grid, each guarded stage runs exactly
according to its own guard: advection iff the advection solver is non-null,
pressure iff the pressure solver is non-null, viscosity iff the diffusion
solver is non-null and the viscosity coefficient exceeds `kEpsilonD` — so a
null solver pointer skips exactly its own stage while the remaining stages
still run. -/
theorem C8_onAdvanceTimeStep_degenerate_and_null_solvers
    {σ : Type} (cfg : PipelineConfig σ) (dt : ℚ) (s : σ) :
    ((cfg.resolution.x = 0 ∨ cfg.resolution.y = 0 ∨ cfg.resolution.z = 0) →
      cfg.onAdvanceTimeStep dt s = (s, [])) ∧
    (¬(cfg.resolution.x = 0 ∨ cfg.resolution.y = 0 ∨ cfg.resolution.z = 0) →
      ((Stage.advection ∈ (cfg.onAdvanceTimeStep dt s).2 ↔
          cfg.advectionSolver.isSome) ∧
        (Stage.pressure ∈ (cfg.onAdvanceTimeStep dt s).2 ↔
          cfg.pressureSolver.isSome) ∧
        (Stage.viscosity ∈ (cfg.onAdvanceTimeStep dt s).2 ↔
          (cfg.diffusionSolver.isSome ∧
            cfg.viscosityCoefficient > kEpsilonD)))) := by
  constructor
  · intro h
    simp [PipelineConfig.onAdvanceTimeStep, h]
  · intro h
    simp only [PipelineConfig.onAdvanceTimeStep, if_neg h]
    simp only [PipelineConfig.computeExternalForces, PipelineConfig.computeGravity,
      PipelineConfig.computeViscosity, PipelineConfig.computePressure,
      PipelineConfig.computeAdvection]
    rcases hadv : cfg.advectionSolver with _ | fa <;>
      rcases hprs : cfg.pressureSolver with _ | fp <;>
      rcases hdif : cfg.diffusionSolver with _ | fd <;>
      by_cases hg : cfg.gravity.lengthSquared > kEpsilonD <;>
      by_cases hv : cfg.viscosityCoefficient > kEpsilonD <;>
      simp [hg, hv]

/-- C8 witness: a concrete 1×1×1 pipeline over `Unit` state with a null
advection solver, non-null pressure solver and non-null diffusion solver with
viscosity 1: advection is skipped while pressure and viscosity run. -/
theorem C8_onAdvanceTimeStep_degenerate_and_null_solvers_witness :
    (¬((1 : Nat) = 0 ∨ (1 : Nat) = 0 ∨ (1 : Nat) = 0)) ∧
      ((Stage.advection ∈
          ((PipelineConfig.onAdvanceTimeStep
            { resolution := ⟨1, 1, 1⟩, gravity := ⟨0, 0, 0⟩
              viscosityCoefficient := 1
              advectionSolver := none
              diffusionSolver := some (fun _ s => s)
              pressureSolver := some (fun _ s => s)
              gravityBody := fun _ s => s
              beginAdvanceTimeStep := fun _ s => s
              endAdvanceTimeStep := fun _ s => s } 1 ()).2) ↔
          (Option.isSome (α := ℚ → Unit → Unit) none)) ∧
        (Stage.pressure ∈
          ((PipelineConfig.onAdvanceTimeStep
            { resolution := ⟨1, 1, 1⟩, gravity := ⟨0, 0, 0⟩
              viscosityCoefficient := 1
              advectionSolver := none
              diffusionSolver := some (fun _ s => s)
              pressureSolver := some (fun _ s => s)
              gravityBody := fun _ s => s
              beginAdvanceTimeStep := fun _ s => s
              endAdvanceTimeStep := fun _ s => s } 1 ()).2) ↔
          (Option.isSome (some (fun (_ : ℚ) (s : Unit) => s)))) ∧
        (Stage.viscosity ∈
          ((PipelineConfig.onAdvanceTimeStep
            { resolution := ⟨1, 1, 1⟩, gravity := ⟨0, 0, 0⟩
              viscosityCoefficient := 1
              advectionSolver := none
              diffusionSolver := some (fun _ s => s)
              pressureSolver := some (fun _ s => s)
              gravityBody := fun _ s => s
              beginAdvanceTimeStep := fun _ s => s
              endAdvanceTimeStep := fun _ s => s } 1 ()).2) ↔
          ((Option.isSome (some (fun (_ : ℚ) (s : Unit) => s))) ∧
            (1 : ℚ) > kEpsilonD))) :=
  ⟨by decide,
    (C8_onAdvanceTimeStep_degenerate_and_null_solvers
        { resolution := ⟨1, 1, 1⟩, gravity := ⟨0, 0, 0⟩
          viscosityCoefficient := 1
          advectionSolver := none
          diffusionSolver := some (fun _ s => s)
          pressureSolver := some (fun _ s => s)
          gravityBody := fun _ s => s
          beginAdvanceTimeStep := fun _ s => s
          endAdvanceTimeStep := fun _ s => s } 1 ()).2 (by decide)⟩

/-! ## Array<T, 3> (src/FluidEngine/Engine/Math/Array3.h)

Flat dense storage with linear addressing `i + width * (j + height * k)`.
The backing `std::vector<T>` is modelled by its value at every linear
address; element type is fixed to `ℚ`. -/

/-- `Array<T, 3>`: extent plus flat storage. -/
structure Array3 where
  size : Size3
  data : Nat → ℚ

namespace Array3

/-- The linear index `i + width * (j + height * k)` used by
`Array<T, 3>::operator()(i, j, k)`. -/
def linearIndex (sz : Size3) (i j k : Nat) : Nat :=
  i + sz.x * (j + sz.y * k)

/-- `Array<T, 3>::at(i, j, k)` ( = `operator()` with the bounds assertion
discharged by the caller). -/
def at3 (a : Array3) (i j k : Nat) : ℚ :=
  a.data (linearIndex a.size i j k)

/-- A single write `grid(i, j, k) = v` into the flat storage. -/
def writeAt (g : Array3) (i j k : Nat) (v : ℚ) : Array3 :=
  { g with data := fun n => if n = linearIndex g.size i j k then v else g.data n }

/-- `Array<T, 3>::resize(size, initVal)`: build a fresh array of the new size
filled with `initVal`, copy the per-axis overlap
`min(newSize, oldSize)` from the old array with the triple loop
(`k` outer, `j`, `i` inner), then swap. -/
def resize (a : Array3) (size : Size3) (initVal : ℚ) : Array3 :=
  let iMin := min size.x a.size.x
  let jMin := min size.y a.size.y
  let kMin := min size.z a.size.z
  (cells3 ⟨iMin, jMin, kMin⟩).foldl
    (fun g c => g.writeAt c.1 c.2.1 c.2.2 (a.at3 c.1 c.2.1 c.2.2))
    ⟨size, fun _ => initVal⟩

theorem add_mul_cancel_of_lt {s a b m m' : Nat} (ha : a < s) (hb : b < s)
    (h : a + s * m = b + s * m') : a = b ∧ m = m' := by
  have hs : 0 < s := Nat.lt_of_le_of_lt (Nat.zero_le a) ha
  have hmod : (a + s * m) % s = (b + s * m') % s := by rw [h]
  rw [Nat.add_mul_mod_self_left, Nat.add_mul_mod_self_left,
    Nat.mod_eq_of_lt ha, Nat.mod_eq_of_lt hb] at hmod
  subst hmod
  refine ⟨rfl, ?_⟩
  have := Nat.add_left_cancel h
  exact Nat.eq_of_mul_eq_mul_left hs this

theorem linearIndex_inj (sz : Size3) {i j k i' j' k' : Nat}
    (hi : i < sz.x) (hj : j < sz.y)
    (hi' : i' < sz.x) (hj' : j' < sz.y)
    (h : linearIndex sz i j k = linearIndex sz i' j' k') :
    i = i' ∧ j = j' ∧ k = k' := by
  obtain ⟨h1, h2⟩ := add_mul_cancel_of_lt hi hi' h
  obtain ⟨h3, h4⟩ := add_mul_cancel_of_lt hj hj' h2
  exact ⟨h1, h3, h4⟩

theorem writeAt_size (g : Array3) (i j k : Nat) (v : ℚ) :
    (g.writeAt i j k v).size = g.size := rfl

theorem foldl_writeAt_size (a : Array3) (L : List (Nat × Nat × Nat)) :
    ∀ (g : Array3),
      (L.foldl (fun g c => g.writeAt c.1 c.2.1 c.2.2 (a.at3 c.1 c.2.1 c.2.2)) g).size =
        g.size := by
  induction L with
  | nil => intro g; rfl
  | cons c L ih => intro g; exact ih _

/-- Effect of the copy loop on a single in-bounds sample: a cell in the
copied list receives the old array's value there; any other cell keeps the
destination's value. -/
theorem foldl_writeAt_at3 (a : Array3) (sz : Size3) (L : List (Nat × Nat × Nat))
    (hL : ∀ c ∈ L, c.1 < sz.x ∧ c.2.1 < sz.y) :
    ∀ (g : Array3), g.size = sz →
      ∀ (i j k : Nat), i < sz.x → j < sz.y →
        (L.foldl (fun g c => g.writeAt c.1 c.2.1 c.2.2 (a.at3 c.1 c.2.1 c.2.2)) g).at3 i j k =
          if (i, j, k) ∈ L then a.at3 i j k else g.at3 i j k := by
  induction L with
  | nil =>
    intro g hg i j k hi hj
    simp
  | cons c L ih =>
    intro g hg i j k hi hj
    obtain ⟨ci, cj, ck⟩ := c
    have hc := hL (ci, cj, ck) (List.mem_cons_self _ _)
    have hrest : ∀ c ∈ L, c.1 < sz.x ∧ c.2.1 < sz.y := fun c hc =>
      hL c (List.mem_cons_of_mem _ hc)
    rw [List.foldl_cons,
      ih hrest (g.writeAt ci cj ck (a.at3 ci cj ck)) (by rw [writeAt_size, hg]) i j k hi hj]
    by_cases hmem : (i, j, k) ∈ L
    · simp [hmem]
    · simp only [hmem, if_false, List.mem_cons]
      by_cases heq : (i, j, k) = (ci, cj, ck)
      · obtain ⟨rfl, rfl, rfl⟩ := Prod.mk.injEq .. ▸ (by
          injection heq with h1 h23
          injection h23 with h2 h3
          exact ⟨h1, h2, h3⟩ : i = ci ∧ j = cj ∧ k = ck)
        simp only [or_false, if_pos (Or.inl rfl)]
        unfold writeAt at3
        simp [hg]
      · rw [if_neg (by simp [hmem, heq])]
        unfold writeAt at3
        simp only [hg]
        rw [if_neg]
        intro hlin
        exact heq (by
          obtain ⟨h1, h2, h3⟩ :=
            linearIndex_inj sz hi hj hc.1 hc.2 hlin
          simp [h1, h2, h3])

/-- Pointwise description of `resize`: inside the per-axis overlap
`min(newSize, oldSize)` the old values are copied verbatim; everywhere else
(within the new extent) the fill value appears.  No interpolation happens. -/
theorem resize_at3 (a : Array3) (size : Size3) (initVal : ℚ)
    (i j k : Nat) (hi : i < size.x) (hj : j < size.y) :
    (a.resize size initVal).at3 i j k =
      if i < min size.x a.size.x ∧ j < min size.y a.size.y ∧ k < min size.z a.size.z then
        a.at3 i j k
      else initVal := by
  unfold resize
  rw [foldl_writeAt_at3 a size _
      (fun c hc => by
        have := (mem_cells3 _ c).mp hc
        exact ⟨Nat.lt_of_lt_of_le this.1 (Nat.min_le_left _ _),
          Nat.lt_of_lt_of_le this.2.1 (Nat.min_le_left _ _)⟩)
      _ rfl i j k hi hj]
  by_cases hmem :
    (i, j, k) ∈ cells3 ⟨min size.x a.size.x, min size.y a.size.y, min size.z a.size.z⟩
  · rw [if_pos hmem, if_pos ((mem_cells3 _ _).mp hmem)]
  · rw [if_neg hmem, if_neg (fun h => hmem ((mem_cells3 _ _).mpr h))]
    rfl

theorem resize_size (a : Array3) (size : Size3) (initVal : ℚ) :
    (a.resize size initVal).size = size := by
  unfold resize
  exact foldl_writeAt_size a _ _

end Array3

/-- C7: resizing a 3-D array of size `A` to size `B` (with any fill values)
and then back to `A` reproduces the original value at every index inside the
per-axis overlap region `min(A, B)`: `resize` copies the overlapping region
verbatim and performs no interpolation. -/
theorem C7_resize_roundtrip (a : Array3) (B : Size3) (init1 init2 : ℚ)
    (i j k : Nat)
    (hi : i < min a.size.x B.x) (hj : j < min a.size.y B.y)
    (hk : k < min a.size.z B.z) :
    ((a.resize B init1).resize a.size init2).at3 i j k = a.at3 i j k := by
  have hmid := Array3.resize_size a B init1
  have hiA : i < a.size.x := Nat.lt_of_lt_of_le hi (Nat.min_le_left _ _)
  have hjA : j < a.size.y := Nat.lt_of_lt_of_le hj (Nat.min_le_left _ _)
  have hkA : k < a.size.z := Nat.lt_of_lt_of_le hk (Nat.min_le_left _ _)
  have hiB : i < B.x := Nat.lt_of_lt_of_le hi (Nat.min_le_right _ _)
  have hjB : j < B.y := Nat.lt_of_lt_of_le hj (Nat.min_le_right _ _)
  have hkB : k < B.z := Nat.lt_of_lt_of_le hk (Nat.min_le_right _ _)
  rw [Array3.resize_at3 _ _ _ i j k hiA hjA,
    if_pos ⟨by rw [hmid]; exact lt_min hiA hiB,
      by rw [hmid]; exact lt_min hjA hjB,
      by rw [hmid]; exact lt_min hkA hkB⟩,
    Array3.resize_at3 _ _ _ i j k hiB hjB,
    if_pos ⟨lt_min hiB hiA, lt_min hjB hjA, lt_min hkB hkA⟩]

/-- C7 witness: a concrete 2×2×2 array resized to 1×3×1 and back keeps its
value at the overlap index (0, 0, 0). -/
theorem C7_resize_roundtrip_witness :
    (0 < min (2 : Nat) 1 ∧ 0 < min (2 : Nat) 3 ∧ 0 < min (2 : Nat) 1) ∧
      (((Array3.mk ⟨2, 2, 2⟩ (fun n => (n : ℚ))).resize ⟨1, 3, 1⟩ 7).resize
            ⟨2, 2, 2⟩ 9).at3 0 0 0 =
        (Array3.mk ⟨2, 2, 2⟩ (fun n => (n : ℚ))).at3 0 0 0 :=
  ⟨⟨by decide, by decide, by decide⟩,
    C7_resize_roundtrip (Array3.mk ⟨2, 2, 2⟩ (fun n => (n : ℚ))) ⟨1, 3, 1⟩ 7 9
      0 0 0 (by decide) (by decide) (by decide)⟩

/-! ## MatrixCsr (src/FluidEngine/Engine/Math/MatrixCsr.h)

Compressed Sparse Row matrix, element type fixed to `ℚ`.  A dense matrix
expression enters `compress` as its evaluation function. -/

/-- A 2-D extent (`Size2`): `x` = rows, `y` = cols. -/
structure Size2 where
  x : Nat
  y : Nat
deriving DecidableEq

/-- `kMaxSize = std::numeric_limits<size_t>::max()`, the sentinel returned by
`MatrixCsr::hasElement` for absent entries. -/
def kMaxSize : Nat := 18446744073709551615

/-- `MatrixCsr<T>`: non-zero values, row pointers, column indices. -/
structure MatrixCsr where
  size : Size2
  nonZeros : List ℚ
  rowPointers : List Nat
  columnIndices : List Nat
deriving DecidableEq

namespace MatrixCsr

/-- The state `MatrixCsr::clear()` leaves behind — and hence the state of a
default-constructed matrix, whose constructor calls `clear()`: empty size and
storage, but `_rowPointers` holding the single entry `0`
(`_rowPointers.push_back(0)`). -/
def cleared : MatrixCsr :=
  { size := ⟨0, 0⟩, nonZeros := [], rowPointers := [0], columnIndices := [] }

/-- `MatrixCsr::compress(const MatrixExpression&, epsilon)`, verbatim from the
source: `_size` is set, `_nonZeros` and `_columnIndices` are cleared —
`_rowPointers` is NOT cleared — then for each row the current non-zero count
is appended to `_rowPointers` and every entry with `fabs(val) > epsilon` is
appended to `_nonZeros` / `_columnIndices`; one final row pointer is appended
after the loop. -/
def compress (m : MatrixCsr) (numRows numCols : Nat)
    (expression : Nat → Nat → ℚ) (epsilon : ℚ) : MatrixCsr :=
  let st0 : List ℚ × List Nat × List Nat := ([], m.rowPointers, [])
  let st :=
    (List.range numRows).foldl
      (fun st i =>
        let st1 : List ℚ × List Nat × List Nat :=
          (st.1, st.2.1 ++ [st.1.length], st.2.2)
        (List.range numCols).foldl
          (fun st j =>
            if |expression i j| > epsilon then
              (st.1 ++ [expression i j], st.2.1, st.2.2 ++ [j])
            else st)
          st1)
      st0
  { size := ⟨numRows, numCols⟩
    nonZeros := st.1
    rowPointers := st.2.1 ++ [st.1.length]
    columnIndices := st.2.2 }

/-- Modelled from the spec: `binaryFind` (`MathUtils.h` is absent from
`src/`) — binary search within the row's column-index slice, i.e. the
position of the element equal to the sought column in the (sorted) slice, or
none when absent. -/
def sliceFindIdx (slice : List Nat) (j : Nat) : Option Nat :=
  match slice with
  | [] => none
  | c :: rest => if c = j then some 0 else (sliceFindIdx rest j).map (· + 1)

/-- The column-index slice of row `i`:
`_columnIndices[rowBegin .. rowEnd)`. -/
def rowSlice (m : MatrixCsr) (i : Nat) : List Nat :=
  let rowBegin := m.rowPointers.getD i 0
  let rowEnd := m.rowPointers.getD (i + 1) 0
  (m.columnIndices.drop rowBegin).take (rowEnd - rowBegin)

/-- `MatrixCsr::hasElement(i, j)`: `kMaxSize` when `(i, j)` is out of range;
otherwise a binary search for column `j` within row `i`'s column-index slice,
returning the global non-zero index on a hit and `kMaxSize` on a miss. -/
def hasElement (m : MatrixCsr) (i j : Nat) : Nat :=
  if i ≥ m.size.x ∨ j ≥ m.size.y then kMaxSize
  else
    match sliceFindIdx (m.rowSlice i) j with
    | some off => m.rowPointers.getD i 0 + off
    | none => kMaxSize

/-- `MatrixCsr::operator()(i, j)`: `0` on the `kMaxSize` sentinel, the stored
non-zero otherwise. -/
def entry (m : MatrixCsr) (i j : Nat) : ℚ :=
  let nzIndex := m.hasElement i j
  if nzIndex = kMaxSize then 0 else m.nonZeros.getD nzIndex 0

/-- Structural well-formedness of a CSR matrix, as maintained by every
construction path of the class: a row-pointer array of length `rows + 1`,
matching value/column storage, monotone in-bounds row pointers, and storage
small enough that the `kMaxSize` sentinel is distinguishable from a real
index (`std::vector` sizes are below `size_t` max). -/
def Valid (m : MatrixCsr) : Prop :=
  m.rowPointers.length = m.size.x + 1 ∧
  m.columnIndices.length = m.nonZeros.length ∧
  m.nonZeros.length < kMaxSize ∧
  ∀ i < m.size.x,
    m.rowPointers.getD i 0 ≤ m.rowPointers.getD (i + 1) 0 ∧
    m.rowPointers.getD (i + 1) 0 ≤ m.nonZeros.length

instance (m : MatrixCsr) : Decidable m.Valid := by
  unfold Valid
  infer_instance

/-- A stored entry at `(i, j)`: the in-range position `(i, j)` appears among
row `i`'s column indices. -/
def StoredAt (m : MatrixCsr) (i j : Nat) : Prop :=
  i < m.size.x ∧ j < m.size.y ∧ j ∈ m.rowSlice i

theorem sliceFindIdx_eq_none (j : Nat) :
    ∀ (slice : List Nat), sliceFindIdx slice j = none ↔ j ∉ slice := by
  intro slice
  induction slice with
  | nil => simp [sliceFindIdx]
  | cons c rest ih =>
    unfold sliceFindIdx
    by_cases hc : c = j
    · subst hc
      simp
    · rw [if_neg hc, Option.map_eq_none', ih, List.mem_cons]
      constructor
      · rintro h (rfl | h2)
        · exact hc rfl
        · exact h h2
      · intro h h2
        exact h (Or.inr h2)

theorem sliceFindIdx_eq_some (j : Nat) :
    ∀ (slice : List Nat) (off : Nat), sliceFindIdx slice j = some off →
      off < slice.length ∧ slice.getD off 0 = j := by
  intro slice
  induction slice with
  | nil => intro off h; cases h
  | cons c rest ih =>
    intro off h
    unfold sliceFindIdx at h
    by_cases hc : c = j
    · rw [if_pos hc, Option.some.injEq] at h
      subst h
      simpa using hc
    · rw [if_neg hc, Option.map_eq_some'] at h
      obtain ⟨off', hoff', rfl⟩ := h
      obtain ⟨h1, h2⟩ := ih off' hoff'
      exact ⟨by simpa using Nat.succ_lt_succ h1, by simpa using h2⟩

end MatrixCsr

/-- C10: on any structurally well-formed CSR matrix, the element read is
total and in-bounds for EVERY index pair `(i, j)`, including `i ≥ rows` or
`j ≥ cols`: out-of-range pairs and absent entries make `hasElement` return
the `kMaxSize` sentinel and `operator()` return `0`; on a hit, the returned
non-zero index lies inside row `i`'s storage slice (hence strictly below the
non-zero count — no out-of-bounds access), and `operator()` reads exactly
that stored value. -/
theorem C10_csr_read_total (m : MatrixCsr) (hm : m.Valid) (i j : Nat) :
    ((i ≥ m.size.x ∨ j ≥ m.size.y) → m.hasElement i j = kMaxSize) ∧
    (m.hasElement i j = kMaxSize → m.entry i j = 0) ∧
    (¬ m.StoredAt i j → m.entry i j = 0) ∧
    (m.hasElement i j ≠ kMaxSize →
      m.rowPointers.getD i 0 ≤ m.hasElement i j ∧
      m.hasElement i j < m.rowPointers.getD (i + 1) 0 ∧
      m.hasElement i j < m.nonZeros.length ∧
      m.entry i j = m.nonZeros.getD (m.hasElement i j) 0) := by
  obtain ⟨hlen, hcols, hmax, hrows⟩ := hm
  refine ⟨?_, ?_, ?_, ?_⟩
  · intro h
    unfold MatrixCsr.hasElement
    rw [if_pos h]
  · intro h
    unfold MatrixCsr.entry
    rw [if_pos h]
  · intro h
    by_cases hrange : i ≥ m.size.x ∨ j ≥ m.size.y
    · unfold MatrixCsr.entry MatrixCsr.hasElement
      rw [if_pos hrange]
      simp
    · have hi : i < m.size.x := lt_of_not_ge fun hx => hrange (Or.inl hx)
      have hj : j < m.size.y := lt_of_not_ge fun hy => hrange (Or.inr hy)
      have hmem : j ∉ m.rowSlice i := fun hjm => h ⟨hi, hj, hjm⟩
      unfold MatrixCsr.entry MatrixCsr.hasElement
      rw [if_neg hrange,
        (MatrixCsr.sliceFindIdx_eq_none j (m.rowSlice i)).mpr hmem]
      show (if kMaxSize = kMaxSize then (0 : ℚ) else m.nonZeros.getD kMaxSize 0) = 0
      rw [if_pos rfl]
  · intro h
    unfold MatrixCsr.hasElement at h ⊢
    unfold MatrixCsr.entry MatrixCsr.hasElement
    by_cases hrange : i ≥ m.size.x ∨ j ≥ m.size.y
    · rw [if_pos hrange] at h
      exact absurd rfl h
    · rw [if_neg hrange] at h ⊢
      cases hfind : MatrixCsr.sliceFindIdx (m.rowSlice i) j with
      | none =>
        rw [hfind] at h
        exact absurd rfl h
      | some off =>
        rw [hfind] at h
        have hoff := MatrixCsr.sliceFindIdx_eq_some j (m.rowSlice i) off hfind
        push_neg at hrange
        have hbounds := hrows i hrange.1
        have hslicelen : (m.rowSlice i).length =
            min (m.rowPointers.getD (i + 1) 0 - m.rowPointers.getD i 0)
              (m.columnIndices.length - m.rowPointers.getD i 0) := by
          unfold MatrixCsr.rowSlice
          simp [List.length_take, List.length_drop]
        have hlt : m.rowPointers.getD i 0 + off < m.rowPointers.getD (i + 1) 0 := by
          have h1 : off < m.rowPointers.getD (i + 1) 0 - m.rowPointers.getD i 0 := by
            have := hoff.1
            rw [hslicelen] at this
            omega
          omega
        have hnz : m.rowPointers.getD i 0 + off < m.nonZeros.length :=
          lt_of_lt_of_le hlt hbounds.2
        have hne : m.rowPointers.getD i 0 + off ≠ kMaxSize := by
          have := lt_trans hnz hmax
          omega
        refine ⟨Nat.le_add_right _ _, hlt, hnz, ?_⟩
        rw [if_neg hne]

/-- C10 witness: a concrete well-formed 2×2 CSR matrix holding the single
non-zero `5` at `(0, 1)`, read at the absent in-range entry `(0, 0)` through
the theorem. -/
theorem C10_csr_read_total_witness :
    (MatrixCsr.mk ⟨2, 2⟩ [5] [0, 1, 1] [1]).Valid ∧
      ((MatrixCsr.mk ⟨2, 2⟩ [5] [0, 1, 1] [1]).hasElement 0 0 = kMaxSize →
        (MatrixCsr.mk ⟨2, 2⟩ [5] [0, 1, 1] [1]).entry 0 0 = 0) :=
  ⟨by decide, (C10_csr_read_total (MatrixCsr.mk ⟨2, 2⟩ [5] [0, 1, 1] [1])
      (by decide) 0 0).2.1⟩

/-- C6: the failing input, evaluated.  `compress` of the dense 1×1 matrix
`[[1]]` with `epsilon = 0` on a default-constructed (hence `clear()`ed)
matrix: the `MatrixExpression` overload of `compress` does not clear
`_rowPointers` (unlike the sibling initializer-list overload), so the stale
leading `0` shifts every row slice by one; `operator()(0, 0)` then returns
`0` even though `|D(0,0)| = 1 > epsilon`, contradicting the round-trip
property. -/
theorem C6_compress_roundtrip_bug :
    (MatrixCsr.cleared.compress 1 1 (fun _ _ => 1) 0).rowPointers = [0, 0, 1] ∧
      |(1 : ℚ)| > 0 ∧
      (MatrixCsr.cleared.compress 1 1 (fun _ _ => 1) 0).entry 0 0 = 0 ∧
      (MatrixCsr.cleared.compress 1 1 (fun _ _ => 1) 0).entry 0 0 ≠ 1 := by
  refine ⟨?_, ?_, ?_, ?_⟩ <;> with_unfolding_all decide

/-! ## Boundary condition solvers, 2-D
(src/FluidEngine/Engine/Simulation/GridBlockedBoundaryConditionSolver2.cpp)

The blocked solver's own `constrainVelocity` and the marker construction of
`onColliderUpdated` are embedded from the source.  The fractional base-class
`constrainVelocity` it first invokes is not under `src/` (only the 3-D header
is); the null-collider case needed by the closed/open-domain claims is
modelled from the spec. -/

/-- The cell classification of the blocked solver (`kFluid = 1`,
`kCollider = 0`). -/
inductive CellType where
  | fluid
  | collider
deriving DecidableEq

/-- Modelled from the spec: `isInsideSdf` (`LevelSetUtils.h` is absent from
`src/`) — a signed-distance value is inside the surface iff it is negative. -/
def isInsideSdf (phi : ℚ) : Bool := phi < 0

/-- `GridBlockedBoundaryConditionSolver2::onColliderUpdated`: each cell of
the marker grid is classified by the inside/outside SDF test at the cell
center. -/
def markerFromSdf (sdf : Nat → Nat → ℚ) : Nat → Nat → CellType :=
  fun i j => if isInsideSdf (sdf i j) then CellType.collider else CellType.fluid

/-- `FaceCenteredGrid2` (MAC grid): per spec §3, the `u` faces span
`(resolution.x + 1) × resolution.y` samples and the `v` faces
`resolution.x × (resolution.y + 1)`; storage is modelled by total index
functions. -/
structure FaceCenteredGrid2 where
  sx : Nat
  sy : Nat
  u : Nat → Nat → ℚ
  v : Nat → Nat → ℚ

/-- `FaceCenteredGrid2::fill(Vector2D(cu, cv))`: every `u` face takes `cu`,
every `v` face `cv`. -/
def FaceCenteredGrid2.fill (g : FaceCenteredGrid2) (cu cv : ℚ) :
    FaceCenteredGrid2 :=
  { g with u := fun _ _ => cu, v := fun _ _ => cv }

/-- Modelled from the spec: the closed-domain-boundary bitmask (one bit per
domain face; `Constants.h` with the `kDirection*` bits is absent from
`src/`). -/
structure DomainFlags where
  left : Bool
  right : Bool
  down : Bool
  up : Bool
deriving DecidableEq

/-- `kDirectionAll`: every domain boundary closed (the default flag). -/
def kDirectionAll : DomainFlags := ⟨true, true, true, true⟩

/-- Modelled from the spec:
`GridFractionalBoundaryConditionSolver2::constrainVelocity` (source file
absent from `src/`) specialized to a null collider — the SDF is
`+infinity` everywhere, so only domain-boundary closure applies: the normal
velocity on each CLOSED domain boundary face is projected to the (null)
collider's velocity, i.e. zero, and every other face is untouched. -/
def constrainVelocityFractionalNull (flags : DomainFlags)
    (g : FaceCenteredGrid2) : FaceCenteredGrid2 :=
  { g with
    u := fun i j =>
      if flags.left ∧ i = 0 then 0
      else if flags.right ∧ i = g.sx then 0
      else g.u i j
    v := fun i j =>
      if flags.down ∧ j = 0 then 0
      else if flags.up ∧ j = g.sy then 0
      else g.v i j }

/-- A single write `f(a, b) = x` into a face array. -/
def upd2 (f : Nat → Nat → ℚ) (a b : Nat) (x : ℚ) : Nat → Nat → ℚ :=
  fun i j => if i = a ∧ j = b then x else f i j

/-- The serial index order of `Array2::forEachIndex` (`i` fastest). -/
def cells2 (sz : Size2) : List (Nat × Nat) :=
  (List.range sz.y).flatMap fun j => (List.range sz.x).map fun i => (i, j)

theorem mem_cells2 (sz : Size2) (c : Nat × Nat) :
    c ∈ cells2 sz ↔ c.1 < sz.x ∧ c.2 < sz.y := by
  obtain ⟨i, j⟩ := c
  simp only [cells2, List.mem_flatMap, List.mem_map, List.mem_range]
  constructor
  · rintro ⟨j', hj, i', hi, heq⟩
    cases heq
    exact ⟨hi, hj⟩
  · rintro ⟨hi, hj⟩
    exact ⟨j, hj, i, hi, rfl⟩

/-- The `u`-face writes the blocked marker loop performs for one collider
cell `c` (in source order: left-shared face, then right-shared face), acting
on the `u` array.  `size` is `velocity->resolution()`. -/
def constrainU (marker : Nat → Nat → CellType) (size : Size2)
    (cvU : Nat → Nat → ℚ) (c : Nat × Nat) (u : Nat → Nat → ℚ) :
    Nat → Nat → ℚ :=
  if marker c.1 c.2 = CellType.collider then
    let u1 :=
      if 0 < c.1 ∧ marker (c.1 - 1) c.2 = CellType.fluid then
        upd2 u c.1 c.2 (cvU c.1 c.2)
      else u
    if c.1 < size.x - 1 ∧ marker (c.1 + 1) c.2 = CellType.fluid then
      upd2 u1 (c.1 + 1) c.2 (cvU (c.1 + 1) c.2)
    else u1
  else u

/-- The `v`-face writes for one collider cell `c` (down-shared face, then
up-shared face). -/
def constrainV (marker : Nat → Nat → CellType) (size : Size2)
    (cvV : Nat → Nat → ℚ) (c : Nat × Nat) (v : Nat → Nat → ℚ) :
    Nat → Nat → ℚ :=
  if marker c.1 c.2 = CellType.collider then
    let v1 :=
      if 0 < c.2 ∧ marker c.1 (c.2 - 1) = CellType.fluid then
        upd2 v c.1 c.2 (cvV c.1 c.2)
      else v
    if c.2 < size.y - 1 ∧ marker c.1 (c.2 + 1) = CellType.fluid then
      upd2 v1 c.1 (c.2 + 1) (cvV c.1 (c.2 + 1))
    else v1
  else v

/-- The body of the blocked marker loop for one cell: the `u` writes and `v`
writes touch disjoint arrays. -/
def blockedCellUpdate (marker : Nat → Nat → CellType) (size : Size2)
    (cvU cvV : Nat → Nat → ℚ) (c : Nat × Nat) (g : FaceCenteredGrid2) :
    FaceCenteredGrid2 :=
  { g with
    u := constrainU marker size cvU c g.u
    v := constrainV marker size cvV c g.v }

/-- `GridBlockedBoundaryConditionSolver2::constrainVelocity`: first the
fractional base-class projection `frac`, then the marker loop over the cached
marker grid (of extent `msz`), writing the collider's face-sampled velocity
component onto every face shared between a collider cell and a fluid cell.
`cvU i j` / `cvV i j` stand for `collider()->velocityAt(uPos(i, j)).x` /
`collider()->velocityAt(vPos(i, j)).y`. -/
def constrainVelocityBlocked (frac : FaceCenteredGrid2 → FaceCenteredGrid2)
    (marker : Nat → Nat → CellType) (msz : Size2)
    (cvU cvV : Nat → Nat → ℚ) (g : FaceCenteredGrid2) : FaceCenteredGrid2 :=
  let g1 := frac g
  let size : Size2 := ⟨g1.sx, g1.sy⟩
  (cells2 msz).foldl (fun g c => blockedCellUpdate marker size cvU cvV c g) g1

/-- `cellWritesU marker size c f j`: processing cell `c` writes the `u` face
`(f, j)`. -/
def cellWritesU (marker : Nat → Nat → CellType) (size : Size2)
    (c : Nat × Nat) (f j : Nat) : Prop :=
  marker c.1 c.2 = CellType.collider ∧ c.2 = j ∧
    ((f = c.1 ∧ 0 < c.1 ∧ marker (c.1 - 1) c.2 = CellType.fluid) ∨
      (f = c.1 + 1 ∧ c.1 < size.x - 1 ∧ marker (c.1 + 1) c.2 = CellType.fluid))

/-- `cellWritesV marker size c i fj`: processing cell `c` writes the `v` face
`(i, fj)`. -/
def cellWritesV (marker : Nat → Nat → CellType) (size : Size2)
    (c : Nat × Nat) (i fj : Nat) : Prop :=
  marker c.1 c.2 = CellType.collider ∧ c.1 = i ∧
    ((fj = c.2 ∧ 0 < c.2 ∧ marker c.1 (c.2 - 1) = CellType.fluid) ∨
      (fj = c.2 + 1 ∧ c.2 < size.y - 1 ∧ marker c.1 (c.2 + 1) = CellType.fluid))

instance (marker : Nat → Nat → CellType) (size : Size2) (c : Nat × Nat)
    (f j : Nat) : Decidable (cellWritesU marker size c f j) := by
  unfold cellWritesU
  infer_instance

instance (marker : Nat → Nat → CellType) (size : Size2) (c : Nat × Nat)
    (i fj : Nat) : Decidable (cellWritesV marker size c i fj) := by
  unfold cellWritesV
  infer_instance

/-- Pointwise effect of one cell's `u` writes: the face gets the collider's
`u` component exactly when `cellWritesU` holds, the previous value
otherwise.  (Any face written receives the collider velocity sampled at that
same face, so the write order inside a cell is immaterial.) -/
theorem constrainU_eq (marker : Nat → Nat → CellType) (size : Size2)
    (cvU : Nat → Nat → ℚ) (c : Nat × Nat) (u : Nat → Nat → ℚ) (f j : Nat) :
    constrainU marker size cvU c u f j =
      if cellWritesU marker size c f j then cvU f j else u f j := by
  obtain ⟨ci, cj⟩ := c
  unfold constrainU cellWritesU
  dsimp only
  by_cases hm : marker ci cj = CellType.collider
  · rw [if_pos hm]
    by_cases h2 : ci < size.x - 1 ∧ marker (ci + 1) cj = CellType.fluid
    · rw [if_pos h2]
      by_cases hf2 : f = ci + 1 ∧ j = cj
      · rw [show upd2 _ (ci + 1) cj (cvU (ci + 1) cj) f j = cvU (ci + 1) cj from
            if_pos hf2,
          if_pos ⟨hm, hf2.2.symm, Or.inr ⟨hf2.1, h2.1, h2.2⟩⟩, hf2.1, hf2.2]
      · rw [show upd2 _ (ci + 1) cj (cvU (ci + 1) cj) f j = _ from if_neg hf2]
        by_cases h1 : 0 < ci ∧ marker (ci - 1) cj = CellType.fluid
        · rw [if_pos h1]
          by_cases hf1 : f = ci ∧ j = cj
          · rw [show upd2 u ci cj (cvU ci cj) f j = cvU ci cj from if_pos hf1,
              if_pos ⟨hm, hf1.2.symm, Or.inl ⟨hf1.1, h1.1, h1.2⟩⟩, hf1.1, hf1.2]
          · rw [show upd2 u ci cj (cvU ci cj) f j = u f j from if_neg hf1, if_neg]
            rintro ⟨-, rfl, ⟨hfc, hpos, hfl⟩ | ⟨hfc, hlt, hfl⟩⟩
            · exact hf1 ⟨hfc, rfl⟩
            · exact hf2 ⟨hfc, rfl⟩
        · rw [if_neg h1, if_neg]
          rintro ⟨-, rfl, ⟨hfc, hpos, hfl⟩ | ⟨hfc, hlt, hfl⟩⟩
          · exact h1 ⟨hpos, hfl⟩
          · exact hf2 ⟨hfc, rfl⟩
    · rw [if_neg h2]
      by_cases h1 : 0 < ci ∧ marker (ci - 1) cj = CellType.fluid
      · rw [if_pos h1]
        by_cases hf1 : f = ci ∧ j = cj
        · rw [show upd2 u ci cj (cvU ci cj) f j = cvU ci cj from if_pos hf1,
            if_pos ⟨hm, hf1.2.symm, Or.inl ⟨hf1.1, h1.1, h1.2⟩⟩, hf1.1, hf1.2]
        · rw [show upd2 u ci cj (cvU ci cj) f j = u f j from if_neg hf1, if_neg]
          rintro ⟨-, rfl, ⟨hfc, hpos, hfl⟩ | ⟨hfc, hlt, hfl⟩⟩
          · exact hf1 ⟨hfc, rfl⟩
          · exact h2 ⟨hlt, hfl⟩
      · rw [if_neg h1, if_neg]
        rintro ⟨-, rfl, ⟨hfc, hpos, hfl⟩ | ⟨hfc, hlt, hfl⟩⟩
        · exact h1 ⟨hpos, hfl⟩
        · exact h2 ⟨hlt, hfl⟩
  · rw [if_neg hm, if_neg]
    rintro ⟨hW, -, -⟩
    exact hm hW

/-- Pointwise effect of one cell's `v` writes (mirror of `constrainU_eq`). -/
theorem constrainV_eq (marker : Nat → Nat → CellType) (size : Size2)
    (cvV : Nat → Nat → ℚ) (c : Nat × Nat) (v : Nat → Nat → ℚ) (i fj : Nat) :
    constrainV marker size cvV c v i fj =
      if cellWritesV marker size c i fj then cvV i fj else v i fj := by
  obtain ⟨ci, cj⟩ := c
  unfold constrainV cellWritesV
  dsimp only
  by_cases hm : marker ci cj = CellType.collider
  · rw [if_pos hm]
    by_cases h2 : cj < size.y - 1 ∧ marker ci (cj + 1) = CellType.fluid
    · rw [if_pos h2]
      by_cases hf2 : i = ci ∧ fj = cj + 1
      · rw [show upd2 _ ci (cj + 1) (cvV ci (cj + 1)) i fj = cvV ci (cj + 1) from
            if_pos hf2,
          if_pos ⟨hm, hf2.1.symm, Or.inr ⟨hf2.2, h2.1, h2.2⟩⟩, hf2.1, hf2.2]
      · rw [show upd2 _ ci (cj + 1) (cvV ci (cj + 1)) i fj = _ from if_neg hf2]
        by_cases h1 : 0 < cj ∧ marker ci (cj - 1) = CellType.fluid
        · rw [if_pos h1]
          by_cases hf1 : i = ci ∧ fj = cj
          · rw [show upd2 v ci cj (cvV ci cj) i fj = cvV ci cj from if_pos hf1,
              if_pos ⟨hm, hf1.1.symm, Or.inl ⟨hf1.2, h1.1, h1.2⟩⟩, hf1.1, hf1.2]
          · rw [show upd2 v ci cj (cvV ci cj) i fj = v i fj from if_neg hf1, if_neg]
            rintro ⟨-, rfl, ⟨hfc, hpos, hfl⟩ | ⟨hfc, hlt, hfl⟩⟩
            · exact hf1 ⟨rfl, hfc⟩
            · exact hf2 ⟨rfl, hfc⟩
        · rw [if_neg h1, if_neg]
          rintro ⟨-, rfl, ⟨hfc, hpos, hfl⟩ | ⟨hfc, hlt, hfl⟩⟩
          · exact h1 ⟨hpos, hfl⟩
          · exact hf2 ⟨rfl, hfc⟩
    · rw [if_neg h2]
      by_cases h1 : 0 < cj ∧ marker ci (cj - 1) = CellType.fluid
      · rw [if_pos h1]
        by_cases hf1 : i = ci ∧ fj = cj
        · rw [show upd2 v ci cj (cvV ci cj) i fj = cvV ci cj from if_pos hf1,
            if_pos ⟨hm, hf1.1.symm, Or.inl ⟨hf1.2, h1.1, h1.2⟩⟩, hf1.1, hf1.2]
        · rw [show upd2 v ci cj (cvV ci cj) i fj = v i fj from if_neg hf1, if_neg]
          rintro ⟨-, rfl, ⟨hfc, hpos, hfl⟩ | ⟨hfc, hlt, hfl⟩⟩
          · exact hf1 ⟨rfl, hfc⟩
          · exact h2 ⟨hlt, hfl⟩
      · rw [if_neg h1, if_neg]
        rintro ⟨-, rfl, ⟨hfc, hpos, hfl⟩ | ⟨hfc, hlt, hfl⟩⟩
        · exact h1 ⟨hpos, hfl⟩
        · exact h2 ⟨hlt, hfl⟩
  · rw [if_neg hm, if_neg]
    rintro ⟨hW, -, -⟩
    exact hm hW

theorem blockedCellUpdate_sx (marker : Nat → Nat → CellType) (size : Size2)
    (cvU cvV : Nat → Nat → ℚ) (c : Nat × Nat) (g : FaceCenteredGrid2) :
    (blockedCellUpdate marker size cvU cvV c g).sx = g.sx ∧
      (blockedCellUpdate marker size cvU cvV c g).sy = g.sy :=
  ⟨rfl, rfl⟩

theorem foldl_blocked_u (marker : Nat → Nat → CellType) (size : Size2)
    (cvU cvV : Nat → Nat → ℚ) (L : List (Nat × Nat)) :
    ∀ (g : FaceCenteredGrid2) (f j : Nat),
      (L.foldl (fun g c => blockedCellUpdate marker size cvU cvV c g) g).u f j =
        if ∃ c ∈ L, cellWritesU marker size c f j then cvU f j
        else g.u f j := by
  induction L with
  | nil => intro g f j; simp
  | cons c L ih =>
    intro g f j
    rw [List.foldl_cons, ih]
    by_cases hL : ∃ c' ∈ L, cellWritesU marker size c' f j
    · rw [if_pos hL, if_pos]
      obtain ⟨c', hc', hW⟩ := hL
      exact ⟨c', List.mem_cons_of_mem c hc', hW⟩
    · rw [if_neg hL]
      show constrainU marker size cvU c g.u f j = _
      rw [constrainU_eq]
      by_cases hc : cellWritesU marker size c f j
      · rw [if_pos hc, if_pos ⟨c, List.mem_cons_self c L, hc⟩]
      · rw [if_neg hc, if_neg]
        rintro ⟨c', hc', hW⟩
        rcases List.mem_cons.mp hc' with rfl | hmem
        · exact hc hW
        · exact hL ⟨c', hmem, hW⟩

theorem foldl_blocked_v (marker : Nat → Nat → CellType) (size : Size2)
    (cvU cvV : Nat → Nat → ℚ) (L : List (Nat × Nat)) :
    ∀ (g : FaceCenteredGrid2) (i fj : Nat),
      (L.foldl (fun g c => blockedCellUpdate marker size cvU cvV c g) g).v i fj =
        if ∃ c ∈ L, cellWritesV marker size c i fj then cvV i fj
        else g.v i fj := by
  induction L with
  | nil => intro g i fj; simp
  | cons c L ih =>
    intro g i fj
    rw [List.foldl_cons, ih]
    by_cases hL : ∃ c' ∈ L, cellWritesV marker size c' i fj
    · rw [if_pos hL, if_pos]
      obtain ⟨c', hc', hW⟩ := hL
      exact ⟨c', List.mem_cons_of_mem c hc', hW⟩
    · rw [if_neg hL]
      show constrainV marker size cvV c g.v i fj = _
      rw [constrainV_eq]
      by_cases hc : cellWritesV marker size c i fj
      · rw [if_pos hc, if_pos ⟨c, List.mem_cons_self c L, hc⟩]
      · rw [if_neg hc, if_neg]
        rintro ⟨c', hc', hW⟩
        rcases List.mem_cons.mp hc' with rfl | hmem
        · exact hc hW
        · exact hL ⟨c', hmem, hW⟩

theorem foldl_blocked_size (marker : Nat → Nat → CellType) (size : Size2)
    (cvU cvV : Nat → Nat → ℚ) (L : List (Nat × Nat)) :
    ∀ (g : FaceCenteredGrid2),
      (L.foldl (fun g c => blockedCellUpdate marker size cvU cvV c g) g).sx = g.sx ∧
      (L.foldl (fun g c => blockedCellUpdate marker size cvU cvV c g) g).sy = g.sy := by
  induction L with
  | nil => intro g; exact ⟨rfl, rfl⟩
  | cons c L ih => intro g; exact ih _

/-- A `u` face `(f, j)` is written by the blocked marker loop iff it is an
interior-of-iteration face shared between a collider cell and a fluid cell
(horizontally adjacent), with the bounds of the marker grid `msz` and the
velocity resolution `vsz` as in the source. -/
def blockedWritesU (marker : Nat → Nat → CellType) (msz vsz : Size2)
    (f j : Nat) : Prop :=
  j < msz.y ∧
    ((f < msz.x ∧ 0 < f ∧ marker f j = CellType.collider ∧
        marker (f - 1) j = CellType.fluid) ∨
      (0 < f ∧ f - 1 < msz.x ∧ f - 1 < vsz.x - 1 ∧
        marker (f - 1) j = CellType.collider ∧ marker f j = CellType.fluid))

/-- Mirror of `blockedWritesU` for `v` faces (vertical adjacency). -/
def blockedWritesV (marker : Nat → Nat → CellType) (msz vsz : Size2)
    (i fj : Nat) : Prop :=
  i < msz.x ∧
    ((fj < msz.y ∧ 0 < fj ∧ marker i fj = CellType.collider ∧
        marker i (fj - 1) = CellType.fluid) ∨
      (0 < fj ∧ fj - 1 < msz.y ∧ fj - 1 < vsz.y - 1 ∧
        marker i (fj - 1) = CellType.collider ∧ marker i fj = CellType.fluid))

instance (marker : Nat → Nat → CellType) (msz vsz : Size2) (f j : Nat) :
    Decidable (blockedWritesU marker msz vsz f j) := by
  unfold blockedWritesU
  infer_instance

instance (marker : Nat → Nat → CellType) (msz vsz : Size2) (i fj : Nat) :
    Decidable (blockedWritesV marker msz vsz i fj) := by
  unfold blockedWritesV
  infer_instance

theorem exists_cellWritesU_iff (marker : Nat → Nat → CellType)
    (msz vsz : Size2) (f j : Nat) :
    (∃ c ∈ cells2 msz, cellWritesU marker vsz c f j) ↔
      blockedWritesU marker msz vsz f j := by
  constructor
  · rintro ⟨⟨ci, cj⟩, hc, hW⟩
    obtain ⟨hci, hcj⟩ := (mem_cells2 msz (ci, cj)).mp hc
    obtain ⟨hcol, rfl, hcase⟩ := hW
    rcases hcase with ⟨rfl, hpos, hfl⟩ | ⟨rfl, hlt, hfl⟩
    · exact ⟨hcj, Or.inl ⟨hci, hpos, hcol, hfl⟩⟩
    · refine ⟨hcj, Or.inr ⟨Nat.succ_pos ci, ?_, ?_, ?_, hfl⟩⟩
      · simpa using hci
      · simpa using hlt
      · simpa using hcol
  · rintro ⟨hj, ⟨hf, hpos, hcol, hfl⟩ | ⟨hpos, hlt, hvlt, hcol, hfl⟩⟩
    · exact ⟨(f, j), (mem_cells2 msz (f, j)).mpr ⟨hf, hj⟩,
        hcol, rfl, Or.inl ⟨rfl, hpos, hfl⟩⟩
    · refine ⟨(f - 1, j), (mem_cells2 msz (f - 1, j)).mpr ⟨hlt, hj⟩,
        hcol, rfl, Or.inr ⟨by omega, hvlt, ?_⟩⟩
      rw [show f - 1 + 1 = f from by omega]
      exact hfl

theorem exists_cellWritesV_iff (marker : Nat → Nat → CellType)
    (msz vsz : Size2) (i fj : Nat) :
    (∃ c ∈ cells2 msz, cellWritesV marker vsz c i fj) ↔
      blockedWritesV marker msz vsz i fj := by
  constructor
  · rintro ⟨⟨ci, cj⟩, hc, hW⟩
    obtain ⟨hci, hcj⟩ := (mem_cells2 msz (ci, cj)).mp hc
    obtain ⟨hcol, rfl, hcase⟩ := hW
    rcases hcase with ⟨rfl, hpos, hfl⟩ | ⟨rfl, hlt, hfl⟩
    · exact ⟨hci, Or.inl ⟨hcj, hpos, hcol, hfl⟩⟩
    · refine ⟨hci, Or.inr ⟨Nat.succ_pos cj, ?_, ?_, ?_, hfl⟩⟩
      · simpa using hcj
      · simpa using hlt
      · simpa using hcol
  · rintro ⟨hi, ⟨hfj, hpos, hcol, hfl⟩ | ⟨hpos, hlt, hvlt, hcol, hfl⟩⟩
    · exact ⟨(i, fj), (mem_cells2 msz (i, fj)).mpr ⟨hi, hfj⟩,
        hcol, rfl, Or.inl ⟨rfl, hpos, hfl⟩⟩
    · refine ⟨(i, fj - 1), (mem_cells2 msz (i, fj - 1)).mpr ⟨hi, hlt⟩,
        hcol, rfl, Or.inr ⟨by omega, hvlt, ?_⟩⟩
      rw [show fj - 1 + 1 = fj from by omega]
      exact hfl

/-- Modelled from the spec: `kMaxD` (`Constants.h` absent from `src/`), the
largest-double sentinel the boundary cache uses as "+infinity" SDF for a null
collider. -/
def kMaxD : ℚ := 2 ^ 1024

/-- C4: `GridBlockedBoundaryConditionSolver2::constrainVelocity` first runs
the fractional base-class projection `frac` and then overwrites exactly the
faces shared between a cell classified collider (inside the SDF) and an
axis-adjacent cell classified fluid, setting each such face to the
corresponding component (`cvU` / `cvV`) of the collider velocity sampled at
that face's position; every other face keeps its post-fractional value, and
the grid extent is unchanged.  (`msz` is the cached marker extent from
`updateCollider`; face-sharing is bounded by the velocity resolution exactly
as in the source.) -/
theorem C4_blocked_constrainVelocity_overrides_after_fractional
    (frac : FaceCenteredGrid2 → FaceCenteredGrid2) (sdf : Nat → Nat → ℚ)
    (msz : Size2) (cvU cvV : Nat → Nat → ℚ) (g : FaceCenteredGrid2) :
    (∀ f j,
      (constrainVelocityBlocked frac (markerFromSdf sdf) msz cvU cvV g).u f j =
        if blockedWritesU (markerFromSdf sdf) msz ⟨(frac g).sx, (frac g).sy⟩ f j
        then cvU f j else (frac g).u f j) ∧
    (∀ i fj,
      (constrainVelocityBlocked frac (markerFromSdf sdf) msz cvU cvV g).v i fj =
        if blockedWritesV (markerFromSdf sdf) msz ⟨(frac g).sx, (frac g).sy⟩ i fj
        then cvV i fj else (frac g).v i fj) ∧
    (constrainVelocityBlocked frac (markerFromSdf sdf) msz cvU cvV g).sx =
      (frac g).sx ∧
    (constrainVelocityBlocked frac (markerFromSdf sdf) msz cvU cvV g).sy =
      (frac g).sy := by
  refine ⟨?_, ?_, ?_, ?_⟩
  · intro f j
    show ((cells2 msz).foldl
        (fun gr c => blockedCellUpdate (markerFromSdf sdf)
          ⟨(frac g).sx, (frac g).sy⟩ cvU cvV c gr) (frac g)).u f j = _
    rw [foldl_blocked_u]
    exact if_congr (exists_cellWritesU_iff _ msz _ f j) rfl rfl
  · intro i fj
    show ((cells2 msz).foldl
        (fun gr c => blockedCellUpdate (markerFromSdf sdf)
          ⟨(frac g).sx, (frac g).sy⟩ cvU cvV c gr) (frac g)).v i fj = _
    rw [foldl_blocked_v]
    exact if_congr (exists_cellWritesV_iff _ msz _ i fj) rfl rfl
  · exact (foldl_blocked_size _ _ _ _ _ _).1
  · exact (foldl_blocked_size _ _ _ _ _ _).2

/-- With a null collider the cached SDF is `+kMaxD` everywhere, so every cell
is classified fluid. -/
theorem markerFromSdf_kMaxD_fluid (a b : Nat) :
    markerFromSdf (fun _ _ => kMaxD) a b = CellType.fluid := by
  unfold markerFromSdf
  rw [if_neg]
  simp only [isInsideSdf, decide_eq_true_eq, not_lt]
  unfold kMaxD
  positivity

/-- C3: for the blocked boundary solver with a NULL collider (SDF =
`+kMaxD` everywhere, so the marker loop finds no collider cell) and a
velocity grid uniformly filled with `(cu, cv)`, `constrainVelocity` zeroes
exactly the domain-boundary faces of the CLOSED directions and leaves every
other face — interior faces and open-direction boundary faces — at the fill
value.  With all directions closed this zeroes every boundary face and keeps
every interior face; opening a subset keeps exactly the open-direction
boundary faces at the fill value. -/
theorem C3_closed_open_domain (flags : DomainFlags) (g : FaceCenteredGrid2)
    (cu cv : ℚ) (msz : Size2) (cvU cvV : Nat → Nat → ℚ) (i j : Nat) :
    ((constrainVelocityBlocked (constrainVelocityFractionalNull flags)
        (markerFromSdf fun _ _ => kMaxD) msz cvU cvV (g.fill cu cv)).u i j =
      if (flags.left ∧ i = 0) ∨ (flags.right ∧ i = g.sx) then 0 else cu) ∧
    ((constrainVelocityBlocked (constrainVelocityFractionalNull flags)
        (markerFromSdf fun _ _ => kMaxD) msz cvU cvV (g.fill cu cv)).v i j =
      if (flags.down ∧ j = 0) ∨ (flags.up ∧ j = g.sy) then 0 else cv) := by
  have hnoU : ∀ f j' vsz,
      ¬ blockedWritesU (markerFromSdf fun _ _ => kMaxD) msz vsz f j' := by
    rintro f j' vsz ⟨-, ⟨-, -, hcol, -⟩ | ⟨-, -, -, hcol, -⟩⟩ <;>
      rw [markerFromSdf_kMaxD_fluid] at hcol <;> cases hcol
  have hnoV : ∀ i' fj vsz,
      ¬ blockedWritesV (markerFromSdf fun _ _ => kMaxD) msz vsz i' fj := by
    rintro i' fj vsz ⟨-, ⟨-, -, hcol, -⟩ | ⟨-, -, -, hcol, -⟩⟩ <;>
      rw [markerFromSdf_kMaxD_fluid] at hcol <;> cases hcol
  constructor
  · show ((cells2 msz).foldl _ (constrainVelocityFractionalNull flags
        (g.fill cu cv))).u i j = _
    rw [foldl_blocked_u, if_neg (fun hex => hnoU i j _
      ((exists_cellWritesU_iff _ msz _ i j).mp hex))]
    show (if flags.left ∧ i = 0 then (0 : ℚ)
        else if flags.right ∧ i = g.sx then 0
        else cu) = _
    by_cases h1 : flags.left ∧ i = 0
    · rw [if_pos h1, if_pos (Or.inl h1)]
    · rw [if_neg h1]
      by_cases h2 : flags.right ∧ i = g.sx
      · rw [if_pos h2, if_pos (Or.inr h2)]
      · rw [if_neg h2, if_neg (fun h => h.elim h1 h2)]
  · show ((cells2 msz).foldl _ (constrainVelocityFractionalNull flags
        (g.fill cu cv))).v i j = _
    rw [foldl_blocked_v, if_neg (fun hex => hnoV i j _
      ((exists_cellWritesV_iff _ msz _ i j).mp hex))]
    show (if flags.down ∧ j = 0 then (0 : ℚ)
        else if flags.up ∧ j = g.sy then 0
        else cv) = _
    by_cases h1 : flags.down ∧ j = 0
    · rw [if_pos h1, if_pos (Or.inl h1)]
    · rw [if_neg h1]
      by_cases h2 : flags.up ∧ j = g.sy
      · rw [if_pos h2, if_pos (Or.inr h2)]
      · rw [if_neg h2, if_neg (fun h => h.elim h1 h2)]

end FluidEngine

